import Mathlib

/-!
Verification development for the StudyHelper backend persistence layer.

The definitions below are shallow embeddings of the Python source:
  - supabase_client.py  (document store adapter, failover latch, JSON helpers)
  - quiz_database.py    (quiz relational manager: save/get quiz, save attempt)
  - main.py             (quiz submission scoring in the submit_quiz route)

External collaborators (the Supabase client, psycopg2, sqlite3, the json
standard library) are modelled at their observable boundary: database tables
become in-memory lists of rows, JSON text becomes an abstract value that is
either a well-formed JSON document or malformed/empty text, and wall-clock
timestamps become an explicit parameter.
-/

namespace StudyHelper

/-! ## JSON values and the resources (de)serialization helpers

json.dumps / json.loads from the Python standard library are modelled at the
AST level: a JSON text is either empty, malformed, or the rendering of a JSON
value; dumps of a value renders that value and loads recovers it, which is the
documented contract of the library. -/

/-- A JSON value (the values json.dumps can produce and json.loads returns). -/
inductive Json where
  | null : Json
  | bool (b : Bool) : Json
  | num (q : Int) : Json
  | str (s : String) : Json
  | arr (xs : List Json) : Json
  | obj (fields : List (String × Json)) : Json

/-- A piece of text standing where Python passes a JSON string around: it is
either the empty string, some malformed text, or text whose parse is a JSON
value. -/
inductive JsonText where
  | empty : JsonText
  | malformed : JsonText
  | val (j : Json) : JsonText

/-- Model of json.dumps: always yields a non-empty, well-formed JSON text whose
parse is the argument. -/
def jsonDumps (j : Json) : JsonText := JsonText.val j

/-- Embeds _serialize_resources (supabase_client.py:86-90):
json.dumps(resources or []).  The TypeError branch (non-serializable input)
is unreachable here because Json only holds serializable values. -/
def serialize_resources (resources : Option (List Json)) : JsonText :=
  jsonDumps (Json.arr (resources.getD []))

/-- Embeds _deserialize_resources (supabase_client.py:93-100): falsy input
(None or the empty string) gives [], a parse failure gives [], a parse that is
not a list gives [], otherwise the parsed list. -/
def deserialize_resources (value : Option JsonText) : List Json :=
  match value with
  | none => []
  | some JsonText.empty => []
  | some JsonText.malformed => []
  | some (JsonText.val j) =>
      match j with
      | Json.arr xs => xs
      | _ => []

/-! ## Python round() and the attempt percentage

Python round(x, 2) rounds to 2 decimal places, ties to the nearest even
hundredth (banker's rounding).  Arithmetic is modelled over the rationals. -/

/-- Round a rational to the nearest integer, ties to even (Python round). -/
def roundHalfEven (q : ℚ) : ℤ :=
  if q - ⌊q⌋ < 1/2 then ⌊q⌋
  else if 1/2 < q - ⌊q⌋ then ⌊q⌋ + 1
  else if ⌊q⌋ % 2 = 0 then ⌊q⌋ else ⌊q⌋ + 1

/-- Model of Python round(x, 2). -/
def round2 (q : ℚ) : ℚ := (roundHalfEven (q * 100) : ℚ) / 100

/-- Embeds the percentage expression shared by save_user_quiz_attempt_manual
(quiz_database.py:489) and save_user_quiz_attempt_supabase
(quiz_database.py:571): (score / total_marks) * 100 if total_marks > 0 else 0. -/
def rawPercentage (score total_marks : ℤ) : ℚ :=
  if 0 < total_marks then ((score : ℚ) / (total_marks : ℚ)) * 100 else 0

/-! ## Backend selection and the failover latch

supabase_client.py keeps a module-level flag SUPABASE_AVAILABLE; every
document operation consults it, attempts Supabase only when it is true, and on
any Supabase exception calls _handle_supabase_failure (lines 173-177), which
sets the flag to false; nothing after module initialisation ever sets it back
to true.  quiz_database.py has no such flag: get_db_connection (lines 40-57)
attempts a fresh psycopg2 connection on every call and the caller falls back
for that call only when the connection attempt fails. -/

/-- Which backend actually served one operation. -/
inductive Backend where
  | primary : Backend
  | fallback : Backend
deriving DecidableEq, Repr

/-- One document-store operation (supabase_client.py pattern at lines 258-294,
463-508, 630-654): if the availability flag is set, attempt Supabase; on
failure _handle_supabase_failure clears the flag and the operation falls back.
Takes the flag and whether Supabase is reachable during this call; returns the
backend used and the new flag. -/
def docOpStep (available : Bool) (primaryOk : Bool) : Backend × Bool :=
  if available then
    if primaryOk then (Backend.primary, true)
    else (Backend.fallback, false)
  else (Backend.fallback, available)

/-- Route a whole trace of document operations, threading the availability
flag; the n-th entry of the input says whether Supabase was reachable during
the n-th call. -/
def docRoutes (available : Bool) : List Bool → List Backend
  | [] => []
  | ok :: rest =>
      let step := docOpStep available ok
      step.1 :: docRoutes step.2 rest

/-- Embeds the routing of one quiz-database operation: get_db_connection
(quiz_database.py:40-57) retries psycopg2.connect on every call with no
remembered state; the operation uses PostgreSQL exactly when that connection
attempt succeeds and falls back (to the Supabase client) for that call
otherwise. -/
def quizRoute (pgOk : Bool) : Backend :=
  if pgOk then Backend.primary else Backend.fallback

/-- Route a trace of quiz-database operations; stateless by construction. -/
def quizRoutes (oks : List Bool) : List Backend := oks.map quizRoute

/-! ## Shared helpers for Python semantics -/

/-- Model of Python str() applied to an optional string: str(None) is the
four-character string None. -/
def pyStr (o : Option String) : String :=
  match o with
  | none => "None"
  | some s => s

/-- Truthiness of an optional string in Python: None and the empty string are
falsy. -/
def strTruthy (o : Option String) : Bool :=
  match o with
  | none => false
  | some s => s ≠ ""

/-- Model of the Python slice s[:n] on a string: keep the first n characters
(code points). -/
def pyTruncate (n : Nat) (s : String) : String :=
  (s.toList.take n).asString

/-- The fixed demo identifier substituted for a missing user id
(supabase_client.py:254, quiz_database.py:77, 119, 189, 443, 486, 568). -/
def demoUserId : String := "550e8400-e29b-41d4-a716-446655440000"

/-- Embeds the pattern `if not user_id: user_id = "550e8400-..."` used by
save_document_session, save_quiz_to_database (and variants) and
save_user_quiz_attempt (and variants). -/
def effectiveUserId (u : Option String) : String :=
  match u with
  | none => demoUserId
  | some s => if s = "" then demoUserId else s

/-! ## Document store adapter (supabase_client.py)

The local SQLite documents table (created in _init_local_storage,
supabase_client.py:61-83) is modelled as a list of rows plus the
autoincrement counter.  The Supabase documents table has the same observable
shape at this layer; both read paths funnel through
_normalize_supabase_document before returning. -/

/-- One row of the documents table (column list at supabase_client.py:68-80). -/
structure DocRow where
  doc_id : Nat
  user_id : Option String
  topic : String
  content : Option String
  summary : Option String
  keywords : Option String
  resources : JsonText
  file_url : Option String
  created_at : String
  download_count : Nat
  last_downloaded : Option String

/-- The documents table with its autoincrement primary key counter. -/
structure DocDB where
  rows : List DocRow
  next_doc_id : Nat

/-- The media payload built by _normalize_supabase_document
(supabase_client.py:219-230). -/
structure MediaPayload where
  summary : String
  keywords : String
  original_content : String
  created_at : String
  download_count : Nat
  last_downloaded : Option String
  original_length : Nat
  summary_length : Nat
  user_id : String
  resources : List Json

/-- The canonical document shape returned by _normalize_supabase_document
(supabase_client.py:232-246). -/
structure NormalizedDoc where
  doc_id : Nat
  topic : String
  summary : String
  keywords : String
  original_content : String
  content : String
  created_at : String
  user_id : Option String
  file_url : Option String
  resources : List Json
  media : MediaPayload
  original_length : Nat
  summary_length : Nat

/-- The record dictionary handed to _normalize_supabase_document: the fields
it may read, plus the stored keywords and created_at (which it never reads). -/
structure DocRecord where
  doc_id : Nat
  user_id : Option String
  topic : String
  content : Option String
  summary : Option String
  file_url : Option String
  keywords : Option String
  created_at : Option String
  resources : List Json

/-- Embeds _normalize_supabase_document (supabase_client.py:208-246).  The
now argument stands for datetime.utcnow().isoformat() evaluated at line 217;
keywords is hard-coded to the empty string at lines 221 and 236. -/
def normalize_supabase_document (now : String) (record : DocRecord) : NormalizedDoc :=
  let original_content := record.content.getD ""
  let summary_text := record.summary.getD ""
  let resources := record.resources
  { doc_id := record.doc_id
    topic := record.topic
    summary := summary_text
    keywords := ""
    original_content := original_content
    content := original_content
    created_at := now
    user_id := if strTruthy record.user_id then some (pyStr record.user_id) else none
    file_url := record.file_url
    resources := resources
    media :=
      { summary := summary_text
        keywords := ""
        original_content := original_content
        created_at := now
        download_count := 0
        last_downloaded := none
        original_length := original_content.length
        summary_length := summary_text.length
        user_id := pyStr record.user_id
        resources := resources }
    original_length := original_content.length
    summary_length := summary_text.length }

/-- The record built from a SQLite row inside get_document
(supabase_client.py:475-505): _row_to_document deserializes the stored
resources text, then the record dictionary is assembled and normalised. -/
def recordOfRow (row : DocRow) : DocRecord :=
  { doc_id := row.doc_id
    user_id := row.user_id
    topic := row.topic
    content := row.content
    summary := row.summary
    file_url := row.file_url
    keywords := row.keywords
    created_at := some row.created_at
    resources := deserialize_resources (some row.resources) }

/-- Embeds get_document (supabase_client.py:459-511) on the SQLite path: a
single-row fetch by doc_id, normalised through _normalize_supabase_document.
The Supabase path (lines 463-473) normalises its fetched record through the
same function. -/
def get_document (now : String) (db : DocDB) (doc_id : Nat) : Option NormalizedDoc :=
  match db.rows.find? (fun r => r.doc_id == doc_id) with
  | none => none
  | some row => some (normalize_supabase_document now (recordOfRow row))

/-- Result envelope of save_document_session. -/
structure SaveDocResult where
  success : Bool
  doc_id : Nat
  timestamp : String

/-- Embeds save_document_session (supabase_client.py:248-297) on the SQLite
path (_save_document_session_sqlite, lines 118-154): substitutes the demo
user for a missing user_id, truncates the topic to 255 characters, serialises
the resources, and inserts one row.  The Supabase path (lines 258-291) inserts
the same user_id and truncated topic into the remote table. -/
def save_document_session (u : Option String) (topic original_content summary : String)
    (resources : List Json) (keywords : Option String) (now : String) (db : DocDB) :
    SaveDocResult × DocDB :=
  let user := effectiveUserId u
  let row : DocRow :=
    { doc_id := db.next_doc_id
      user_id := some user
      topic := pyTruncate 255 topic
      content := some original_content
      summary := some summary
      keywords := keywords
      resources := serialize_resources (some resources)
      file_url := none
      created_at := now
      download_count := 0
      last_downloaded := none }
  ({ success := true, doc_id := db.next_doc_id, timestamp := now },
   { rows := db.rows ++ [row], next_doc_id := db.next_doc_id + 1 })

/-- Result envelope of delete_document: success flag plus the message string
used to distinguish the outcomes. -/
structure DeleteResult where
  success : Bool
  message : String
deriving DecidableEq, Repr

/-- Embeds delete_document (supabase_client.py:618-657): fetch the document
first; absent gives a not-found result; with a truthy caller user_id the
stored owner (top-level user_id, else the media user_id) is compared and a
mismatch gives a denial before any backend is touched; otherwise the row is
deleted (SQLite path, lines 646-654; the Supabase path deletes the same row
remotely). -/
def delete_document (now : String) (db : DocDB) (doc_id : Nat) (user_id : Option String) :
    DeleteResult × DocDB :=
  match get_document now db doc_id with
  | none => ({ success := false, message := "Document not found" }, db)
  | some existing =>
      let denied : Bool :=
        match user_id with
        | none => false
        | some u =>
            if u = "" then false
            else
              let doc_user :=
                match existing.user_id with
                | some v => if v = "" then existing.media.user_id else v
                | none => existing.media.user_id
              (!(doc_user == "")) && (!(doc_user == u))
      if denied then
        ({ success := false, message := "Access denied: You can only delete your own documents" }, db)
      else
        ({ success := true, message := "Document deleted successfully" },
         { rows := db.rows.filter (fun r => r.doc_id != doc_id), next_doc_id := db.next_doc_id })

/-! ## Quiz relational manager (quiz_database.py)

The four quiz tables (quizzes, questions, options, quiz_questions) and the two
attempt tables (user_quizzes, user_answers) are modelled as lists of rows with
explicit autoincrement counters for the serial primary keys. -/

/-- One incoming question dictionary as produced by the generator and consumed
by the save functions (fields read at quiz_database.py:139-155). -/
structure QuestionInput where
  question_text : String
  option_a : String
  option_b : String
  option_c : String
  option_d : String
  correct_option : String
deriving DecidableEq, Repr

/-- One row of the quizzes table (insert at quiz_database.py:122-127). -/
structure QuizRow where
  quiz_id : Nat
  user_id : String
  topic : String
  performance_report : Option String
  total_questions : Nat
deriving DecidableEq, Repr

/-- One row of the questions table. -/
structure QuestionRow where
  question_id : Nat
  question_text : String
deriving DecidableEq, Repr

/-- One row of the options table. -/
structure OptionsRow where
  question_id : Nat
  option_a : String
  option_b : String
  option_c : String
  option_d : String
  correct_option : String
deriving DecidableEq, Repr

/-- One row of the quiz_questions link table. -/
structure QuizQuestionRow where
  quiz_id : Nat
  question_id : Nat
  question_order : Nat
  max_marks : Nat
deriving DecidableEq, Repr

/-- The quiz-side database state. -/
structure QuizDB where
  quizzes : List QuizRow
  questions : List QuestionRow
  options : List OptionsRow
  quiz_questions : List QuizQuestionRow
  next_quiz_id : Nat
  next_question_id : Nat
deriving DecidableEq, Repr

/-- An empty quiz database whose serial counters start at 1 (PostgreSQL
SERIAL default). -/
def emptyQuizDB : QuizDB :=
  { quizzes := [], questions := [], options := [], quiz_questions := []
    next_quiz_id := 1, next_question_id := 1 }

/-- Embeds the question loop of save_quiz_to_database_manual
(quiz_database.py:132-162): for each question, in input order, insert the
question row, its options row (no validation of correct_option), and the
quiz_questions link carrying the 1-based position and max_marks 1.
save_quiz_to_database_supabase (lines 209-242) performs the same inserts
through the Supabase client. -/
def saveQuestionsLoop (quiz_id : Nat) (order : Nat) (qs : List QuestionInput)
    (db : QuizDB) : QuizDB :=
  match qs with
  | [] => db
  | q :: rest =>
      let qid := db.next_question_id
      saveQuestionsLoop quiz_id (order + 1) rest
        { db with
          questions := db.questions ++ [⟨qid, q.question_text⟩]
          options := db.options ++
            [⟨qid, q.option_a, q.option_b, q.option_c, q.option_d, q.correct_option⟩]
          quiz_questions := db.quiz_questions ++ [⟨quiz_id, qid, order, 1⟩]
          next_question_id := qid + 1 }

/-- Result envelope of the quiz save functions (quiz_database.py:167-172). -/
structure SaveQuizResult where
  success : Bool
  quiz_id : Nat
  total_questions : Nat
deriving DecidableEq, Repr

/-- Embeds save_quiz_to_database_manual (quiz_database.py:100-180): substitute
the demo user, insert the quiz row with the topic truncated to 255 characters
and the stored question count, then insert every question with its options and
link row in input order.  No validation is performed on correct_option. -/
def save_quiz_to_database_manual (topic : String) (questions_data : List QuestionInput)
    (performance_report : Option String) (user_id : Option String) (db : QuizDB) :
    SaveQuizResult × QuizDB :=
  let user := effectiveUserId user_id
  let quiz_id := db.next_quiz_id
  let db1 : QuizDB :=
    { db with
      quizzes := db.quizzes ++
        [⟨quiz_id, user, pyTruncate 255 topic, performance_report, questions_data.length⟩]
      next_quiz_id := quiz_id + 1 }
  let db2 := saveQuestionsLoop quiz_id 1 questions_data db1
  ({ success := true, quiz_id := quiz_id, total_questions := questions_data.length }, db2)

/-- Embeds the validation loop of the quiz generation endpoint
(main.py:1130-1142): generator output is rejected unless it is a non-empty
list of questions whose correct_option is one of the literal letters A-D
(the required-fields check is implicit here because QuestionInput is total).
This runs before any database write in that endpoint. -/
def generate_quiz_validate (questions_data : List QuestionInput) : Bool :=
  (!questions_data.isEmpty) &&
    questions_data.all (fun q =>
      q.correct_option == "A" || q.correct_option == "B" ||
      q.correct_option == "C" || q.correct_option == "D")

/-- One assembled question of a retrieved quiz (quiz_database.py:324-334). -/
structure QuizViewQuestion where
  question_id : Nat
  question_text : String
  option_a : String
  option_b : String
  option_c : String
  option_d : String
  correct_option : String
  question_order : Nat
  max_marks : Nat
deriving DecidableEq, Repr

/-- The assembled quiz returned by get_quiz_by_id (quiz_database.py:336-342). -/
structure QuizView where
  quiz_id : Nat
  topic : String
  performance_report : Option String
  questions : List QuizViewQuestion
  total_questions : Nat
deriving DecidableEq, Repr

/-- Insert one link row into a list sorted by question_order (helper for the
ORDER BY question_order of the retrieval query). -/
def insertByOrder (x : QuizQuestionRow) : List QuizQuestionRow → List QuizQuestionRow
  | [] => [x]
  | y :: ys =>
      if x.question_order ≤ y.question_order then x :: y :: ys
      else y :: insertByOrder x ys

/-- Stable sort by question_order, modelling ORDER BY qq.question_order of the
retrieval query (quiz_database.py:312). -/
def sortByOrder : List QuizQuestionRow → List QuizQuestionRow
  | [] => []
  | x :: xs => insertByOrder x (sortByOrder xs)

/-- The JOIN of one link row against the questions and options tables
(quiz_database.py:297-313): the row appears in the result only when both the
question and its options row exist. -/
def joinQuestionRow (questions : List QuestionRow) (options : List OptionsRow)
    (l : QuizQuestionRow) : Option QuizViewQuestion :=
  match questions.find? (fun q => q.question_id == l.question_id),
        options.find? (fun o => o.question_id == l.question_id) with
  | some qr, some orow =>
      some ⟨l.question_id, qr.question_text, orow.option_a, orow.option_b,
            orow.option_c, orow.option_d, orow.correct_option,
            l.question_order, l.max_marks⟩
  | _, _ => none

/-- Embeds get_quiz_by_id (quiz_database.py:263-349): fetch the quiz row (absent
gives not-found), fetch the joined questions ordered by question_order
ascending (none gives not-found), and assemble the view with total_questions
recomputed as the number of joined questions. -/
def get_quiz_by_id (db : QuizDB) (quiz_id : Nat) : Option QuizView :=
  match db.quizzes.find? (fun qz => qz.quiz_id == quiz_id) with
  | none => none
  | some qz =>
      let links := sortByOrder (db.quiz_questions.filter (fun l => l.quiz_id == quiz_id))
      let rows := links.filterMap (joinQuestionRow db.questions db.options)
      if rows.isEmpty then none
      else some ⟨qz.quiz_id, qz.topic, qz.performance_report, rows, rows.length⟩

/-! ## Quiz attempts (user_quizzes / user_answers) -/

/-- One answer dictionary passed into the attempt save functions (fields read
at quiz_database.py:535-539). -/
structure AnswerInput where
  question_id : Nat
  selected_option : String
  awarded_marks : Int
deriving DecidableEq, Repr

/-- One row of the user_quizzes table. -/
structure AttemptRow where
  user_quiz_id : Nat
  user_id : String
  quiz_id : Nat
  total_marks : Int
  score : Int
  percentage : ℚ
deriving DecidableEq, Repr

/-- One row of the user_answers table. -/
structure AnswerRow where
  user_quiz_id : Nat
  question_id : Nat
  selected_option : String
  awarded_marks : Int
deriving DecidableEq, Repr

/-- The attempt-side database state. -/
structure AttemptDB where
  attempts : List AttemptRow
  answers : List AnswerRow
  next_user_quiz_id : Nat
deriving DecidableEq, Repr

/-- An empty attempt database with the serial counter at 1. -/
def emptyAttemptDB : AttemptDB := { attempts := [], answers := [], next_user_quiz_id := 1 }

/-- Result envelope of the attempt save functions (quiz_database.py:545-550):
note that the percentage returned here is the raw, unrounded value, while the
rounded value is what is written to the row. -/
structure SaveAttemptResult where
  success : Bool
  user_quiz_id : Nat
  percentage : ℚ
deriving DecidableEq, Repr

/-- Build the user_answers row inserted for one answer
(quiz_database.py:530-540). -/
def mkAnswerRow (uq : Nat) (a : AnswerInput) : AnswerRow :=
  ⟨uq, a.question_id, a.selected_option, a.awarded_marks⟩

/-- The WHERE user_id = %s AND quiz_id = %s condition of the existing-attempt
lookup (quiz_database.py:492-495). -/
def attemptKey (u : String) (q : Nat) (a : AttemptRow) : Bool :=
  a.user_id == u && a.quiz_id == q

/-- The UPDATE of the existing attempt row (quiz_database.py:503-510): only
the scoring fields change, keyed on user_quiz_id. -/
def updateAttemptRow (uq : Nat) (total_marks score : Int) (pct : ℚ) (a : AttemptRow) :
    AttemptRow :=
  if a.user_quiz_id == uq then
    { a with total_marks := total_marks, score := score, percentage := pct }
  else a

/-- Embeds save_user_quiz_attempt_manual (quiz_database.py:466-558): substitute
the demo user, compute the raw percentage, look up an existing attempt for
(user_id, quiz_id); if found, update its scoring fields with the rounded
percentage and delete its old answers, else insert a fresh attempt row; then
insert the submitted answers under that attempt id.  The returned envelope
carries the unrounded percentage.  save_user_quiz_attempt_supabase
(quiz_database.py:560-627) performs the same check/update/delete/insert
sequence through the Supabase client. -/
def save_user_quiz_attempt_manual (user_id : Option String) (quiz_id : Nat)
    (user_answers : List AnswerInput) (total_marks score : Int) (db : AttemptDB) :
    SaveAttemptResult × AttemptDB :=
  let user := effectiveUserId user_id
  let percentage := rawPercentage score total_marks
  match db.attempts.find? (attemptKey user quiz_id) with
  | some existing =>
      let uq := existing.user_quiz_id
      let attempts := db.attempts.map (updateAttemptRow uq total_marks score (round2 percentage))
      let answers := db.answers.filter (fun x => x.user_quiz_id != uq) ++
        user_answers.map (mkAnswerRow uq)
      ({ success := true, user_quiz_id := uq, percentage := percentage },
       { db with attempts := attempts, answers := answers })
  | none =>
      let uq := db.next_user_quiz_id
      ({ success := true, user_quiz_id := uq, percentage := percentage },
       { attempts := db.attempts ++ [⟨uq, user, quiz_id, total_marks, score, round2 percentage⟩]
         answers := db.answers ++ user_answers.map (mkAnswerRow uq)
         next_user_quiz_id := uq + 1 })

/-- One submission of an attempt, as the arguments of one call to the attempt
save operation. -/
structure SaveOp where
  user_id : Option String
  quiz_id : Nat
  answers : List AnswerInput
  total_marks : Int
  score : Int
deriving DecidableEq, Repr

/-- Apply one attempt save to the database, keeping only the state. -/
def applyAttemptOp (db : AttemptDB) (op : SaveOp) : AttemptDB :=
  (save_user_quiz_attempt_manual op.user_id op.quiz_id op.answers op.total_marks op.score db).2

/-- Run a sequence of attempt saves from the empty database. -/
def runAttemptOps (ops : List SaveOp) : AttemptDB :=
  ops.foldl applyAttemptOp emptyAttemptDB

/-- All attempt rows stored for one (user_id, quiz_id) pair. -/
def attemptsFor (db : AttemptDB) (u : String) (q : Nat) : List AttemptRow :=
  db.attempts.filter (attemptKey u q)

/-- All answer rows stored under one attempt id. -/
def answersFor (db : AttemptDB) (uq : Nat) : List AnswerRow :=
  db.answers.filter (fun x => x.user_quiz_id == uq)

/-! ## Quiz submission scoring (main.py submit_quiz) -/

/-- One answer as submitted over the wire (documented shape at main.py:198). -/
structure SubmittedAnswer where
  question_id : Nat
  selected_option : String
deriving DecidableEq, Repr

/-- The correct_answers dictionary of submit_quiz (main.py:1299): a dict
comprehension over the quiz questions in which a later duplicate key
overwrites an earlier one, then .get(question_id) which is None when the key
is absent. -/
def quizCorrectAnswers (questions : List QuizViewQuestion) (qid : Nat) : Option String :=
  (questions.reverse.find? (fun q => q.question_id == qid)).map (fun q => q.correct_option)

/-- One iteration of the scoring loop of submit_quiz (main.py:1301-1316): an
answer is correct exactly when its selected_option equals the correct option
of its question (a missing question_id makes the comparison against None,
which is false for a string); a correct answer awards 1 mark and increments
the score, and the user_answers row is accumulated. -/
def scoreStep (questions : List QuizViewQuestion) (st : Int × List AnswerInput)
    (a : SubmittedAnswer) : Int × List AnswerInput :=
  let is_correct := quizCorrectAnswers questions a.question_id == some a.selected_option
  let awarded : Int := if is_correct then 1 else 0
  (st.1 + awarded, st.2 ++ [⟨a.question_id, a.selected_option, awarded⟩])

/-- Embeds the scoring loop of submit_quiz (main.py:1293-1316): fold scoreStep
over the submitted answers starting from score 0 and no accumulated rows. -/
def submit_quiz_score (questions : List QuizViewQuestion) (answers : List SubmittedAnswer) :
    Int × List AnswerInput :=
  answers.foldl (scoreStep questions) ((0 : Int), ([] : List AnswerInput))

/-- Embeds total_marks of submit_quiz (main.py:1295): the number of questions
in the quiz. -/
def submit_quiz_total_marks (questions : List QuizViewQuestion) : Int :=
  questions.length

/-! ## Generic list lemmas used by the table reasoning -/

theorem find?_append_of_none {α : Type _} (p : α → Bool) (l₁ l₂ : List α)
    (h : ∀ x ∈ l₁, p x = false) : (l₁ ++ l₂).find? p = l₂.find? p := by
  induction l₁ with
  | nil => rfl
  | cons x xs ih =>
      have hx := h x (by simp)
      simp only [List.cons_append, List.find?, hx]
      exact ih (fun y hy => h y (by simp [hy]))

theorem filter_eq_nil_of_false {α : Type _} (p : α → Bool) (l : List α)
    (h : ∀ x ∈ l, p x = false) : l.filter p = [] := by
  induction l with
  | nil => rfl
  | cons x xs ih =>
      have hx := h x (by simp)
      simp only [List.filter, hx]
      exact ih (fun y hy => h y (by simp [hy]))

theorem filter_eq_self_of_true {α : Type _} (p : α → Bool) (l : List α)
    (h : ∀ x ∈ l, p x = true) : l.filter p = l := by
  induction l with
  | nil => rfl
  | cons x xs ih =>
      have hx := h x (by simp)
      simp only [List.filter, hx]
      exact congrArg (x :: ·) (ih (fun y hy => h y (by simp [hy])))

theorem filter_eq_nil_of_find?_none {α : Type _} (p : α → Bool) (l : List α)
    (h : l.find? p = none) : l.filter p = [] := by
  induction l with
  | nil => rfl
  | cons x xs ih =>
      by_cases hx : p x = true
      · simp [List.find?, hx] at h
      · have hx' : p x = false := by simpa using hx
        simp only [List.find?, hx'] at h
        simp only [List.filter, hx']
        exact ih h

theorem filter_map_of_pres {α : Type _} (p : α → Bool) (f : α → α) (l : List α)
    (h : ∀ a, p (f a) = p a) : (l.map f).filter p = (l.filter p).map f := by
  induction l with
  | nil => rfl
  | cons x xs ih =>
      by_cases hx : p x = true
      · simp only [List.map, List.filter, h x, hx, ih]
      · have hx' : p x = false := by simpa using hx
        simp only [List.map, List.filter, h x, hx', ih]

theorem find?_filter_single {α : Type _} (p : α → Bool) (l : List α) (a : α)
    (hf : l.find? p = some a) (hlen : (l.filter p).length ≤ 1) : l.filter p = [a] := by
  induction l with
  | nil => simp [List.find?] at hf
  | cons x xs ih =>
      by_cases hx : p x = true
      · simp only [List.find?, hx] at hf
        have hxa : x = a := by simpa using hf
        subst hxa
        simp only [List.filter, hx] at hlen ⊢
        have : xs.filter p = [] := by
          cases hfil : xs.filter p with
          | nil => rfl
          | cons y ys => simp [hfil] at hlen
        simp [this]
      · have hx' : p x = false := by simpa using hx
        simp only [List.find?, hx'] at hf
        simp only [List.filter, hx'] at hlen ⊢
        exact ih hf hlen

/-! ## Invariant for the attempt tables -/

/-- Invariant maintained by the attempt save operation: stored ids are below
the serial counter, answer rows point below the counter, and there is at most
one attempt row per (user_id, quiz_id) pair. -/
def AttemptInv (db : AttemptDB) : Prop :=
  (∀ a ∈ db.attempts, a.user_quiz_id < db.next_user_quiz_id) ∧
  (∀ x ∈ db.answers, x.user_quiz_id < db.next_user_quiz_id) ∧
  (∀ u q, (attemptsFor db u q).length ≤ 1)

theorem attemptInv_empty : AttemptInv emptyAttemptDB := by
  refine ⟨by simp [emptyAttemptDB], by simp [emptyAttemptDB], ?_⟩
  intro u q
  simp [attemptsFor, emptyAttemptDB]

theorem updateAttemptRow_user_quiz_id (uq : Nat) (tm sc : Int) (p : ℚ) (a : AttemptRow) :
    (updateAttemptRow uq tm sc p a).user_quiz_id = a.user_quiz_id := by
  by_cases h : (a.user_quiz_id == uq) = true <;> simp [updateAttemptRow, h]

theorem updateAttemptRow_key (uq : Nat) (tm sc : Int) (p : ℚ) (u : String) (q : Nat)
    (a : AttemptRow) : attemptKey u q (updateAttemptRow uq tm sc p a) = attemptKey u q a := by
  by_cases h : (a.user_quiz_id == uq) = true <;> simp [updateAttemptRow, attemptKey, h]

theorem updateAttemptRow_user_id (uq : Nat) (tm sc : Int) (p : ℚ) (a : AttemptRow) :
    (updateAttemptRow uq tm sc p a).user_id = a.user_id := by
  by_cases h : (a.user_quiz_id == uq) = true <;> simp [updateAttemptRow, h]

theorem save_attempt_insert (user_id : Option String) (quiz_id : Nat)
    (ans : List AnswerInput) (tm sc : Int) (db : AttemptDB)
    (hfind : db.attempts.find? (attemptKey (effectiveUserId user_id) quiz_id) = none) :
    save_user_quiz_attempt_manual user_id quiz_id ans tm sc db =
      ({ success := true, user_quiz_id := db.next_user_quiz_id,
         percentage := rawPercentage sc tm },
       { attempts := db.attempts ++
           [⟨db.next_user_quiz_id, effectiveUserId user_id, quiz_id, tm, sc,
             round2 (rawPercentage sc tm)⟩]
         answers := db.answers ++ ans.map (mkAnswerRow db.next_user_quiz_id)
         next_user_quiz_id := db.next_user_quiz_id + 1 }) := by
  simp only [save_user_quiz_attempt_manual, hfind]

theorem save_attempt_update (user_id : Option String) (quiz_id : Nat)
    (ans : List AnswerInput) (tm sc : Int) (db : AttemptDB) (existing : AttemptRow)
    (hfind : db.attempts.find? (attemptKey (effectiveUserId user_id) quiz_id) = some existing) :
    save_user_quiz_attempt_manual user_id quiz_id ans tm sc db =
      ({ success := true, user_quiz_id := existing.user_quiz_id,
         percentage := rawPercentage sc tm },
       { db with
         attempts := db.attempts.map
           (updateAttemptRow existing.user_quiz_id tm sc (round2 (rawPercentage sc tm)))
         answers := db.answers.filter (fun x => x.user_quiz_id != existing.user_quiz_id) ++
           ans.map (mkAnswerRow existing.user_quiz_id) }) := by
  simp only [save_user_quiz_attempt_manual, hfind]

theorem attemptInv_step (db : AttemptDB) (op : SaveOp) (h : AttemptInv db) :
    AttemptInv (applyAttemptOp db op) := by
  obtain ⟨h1, h2, h3⟩ := h
  cases hfind : db.attempts.find? (attemptKey (effectiveUserId op.user_id) op.quiz_id) with
  | none =>
      rw [applyAttemptOp,
        save_attempt_insert op.user_id op.quiz_id op.answers op.total_marks op.score db hfind]
      refine ⟨?_, ?_, ?_⟩
      · intro a ha
        rcases List.mem_append.mp ha with hmem | hmem
        · exact Nat.lt_succ_of_lt (h1 a hmem)
        · have ha' := List.mem_singleton.mp hmem
          subst ha'
          exact Nat.lt_succ_self _
      · intro x hx
        rcases List.mem_append.mp hx with hmem | hmem
        · exact Nat.lt_succ_of_lt (h2 x hmem)
        · rcases List.mem_map.mp hmem with ⟨b, _, rfl⟩
          exact Nat.lt_succ_self _
      · intro u q
        show (List.filter (attemptKey u q) _).length ≤ 1
        rw [List.filter_append]
        by_cases hk : attemptKey u q
            ⟨db.next_user_quiz_id, effectiveUserId op.user_id, op.quiz_id,
             op.total_marks, op.score, round2 (rawPercentage op.score op.total_marks)⟩ = true
        · have hu : u = effectiveUserId op.user_id := by
            have := (Bool.and_eq_true _ _).mp hk
            exact (beq_iff_eq.mp this.1).symm
          have hq : q = op.quiz_id := by
            have := (Bool.and_eq_true _ _).mp hk
            exact (beq_iff_eq.mp this.2).symm
          subst hu; subst hq
          rw [filter_eq_nil_of_find?_none _ _ hfind]
          simp [hk]
        · have hk' : attemptKey u q
              ⟨db.next_user_quiz_id, effectiveUserId op.user_id, op.quiz_id,
               op.total_marks, op.score, round2 (rawPercentage op.score op.total_marks)⟩ = false := by
            simpa using hk
          have h0 := h3 u q
          simp only [attemptsFor] at h0
          simpa [hk'] using h0
  | some existing =>
      rw [applyAttemptOp,
        save_attempt_update op.user_id op.quiz_id op.answers op.total_marks op.score db
          existing hfind]
      have hmem := List.mem_of_find?_eq_some hfind
      refine ⟨?_, ?_, ?_⟩
      · intro a ha
        rcases List.mem_map.mp ha with ⟨b, hb, rfl⟩
        rw [updateAttemptRow_user_quiz_id]
        exact h1 b hb
      · intro x hx
        rcases List.mem_append.mp hx with hmem' | hmem'
        · exact h2 x (List.mem_of_mem_filter hmem')
        · rcases List.mem_map.mp hmem' with ⟨b, _, rfl⟩
          exact h1 existing hmem
      · intro u q
        show (List.filter (attemptKey u q) _).length ≤ 1
        rw [filter_map_of_pres _ _ _
          (updateAttemptRow_key existing.user_quiz_id op.total_marks op.score
            (round2 (rawPercentage op.score op.total_marks)) u q)]
        rw [List.length_map]
        exact h3 u q

theorem attempt_step_reflects (db : AttemptDB) (op : SaveOp) (h : AttemptInv db) :
    ∃ r, attemptsFor (applyAttemptOp db op) (effectiveUserId op.user_id) op.quiz_id = [r] ∧
      r.user_id = effectiveUserId op.user_id ∧ r.quiz_id = op.quiz_id ∧
      r.total_marks = op.total_marks ∧ r.score = op.score ∧
      r.percentage = round2 (rawPercentage op.score op.total_marks) ∧
      answersFor (applyAttemptOp db op) r.user_quiz_id =
        op.answers.map (mkAnswerRow r.user_quiz_id) := by
  obtain ⟨h1, h2, h3⟩ := h
  cases hfind : db.attempts.find? (attemptKey (effectiveUserId op.user_id) op.quiz_id) with
  | none =>
      rw [applyAttemptOp,
        save_attempt_insert op.user_id op.quiz_id op.answers op.total_marks op.score db hfind]
      refine ⟨⟨db.next_user_quiz_id, effectiveUserId op.user_id, op.quiz_id,
        op.total_marks, op.score, round2 (rawPercentage op.score op.total_marks)⟩,
        ?_, rfl, rfl, rfl, rfl, rfl, ?_⟩
      · show List.filter _ _ = _
        rw [List.filter_append, filter_eq_nil_of_find?_none _ _ hfind]
        simp [attemptKey]
      · show List.filter _ _ = _
        rw [List.filter_append]
        have hold : db.answers.filter
            (fun x => x.user_quiz_id == db.next_user_quiz_id) = [] := by
          apply filter_eq_nil_of_false
          intro x hx
          exact beq_eq_false_iff_ne.mpr (Nat.ne_of_lt (h2 x hx))
        have hnew : (op.answers.map (mkAnswerRow db.next_user_quiz_id)).filter
            (fun x => x.user_quiz_id == db.next_user_quiz_id) =
            op.answers.map (mkAnswerRow db.next_user_quiz_id) := by
          apply filter_eq_self_of_true
          intro x hx
          rcases List.mem_map.mp hx with ⟨b, _, rfl⟩
          simp [mkAnswerRow]
        rw [hold, hnew, List.nil_append]
  | some existing =>
      rw [applyAttemptOp,
        save_attempt_update op.user_id op.quiz_id op.answers op.total_marks op.score db
          existing hfind]
      have hkey : attemptKey (effectiveUserId op.user_id) op.quiz_id existing = true :=
        List.find?_some hfind
      have huser : existing.user_id = effectiveUserId op.user_id :=
        beq_iff_eq.mp ((Bool.and_eq_true _ _).mp hkey).1
      have hquiz : existing.quiz_id = op.quiz_id :=
        beq_iff_eq.mp ((Bool.and_eq_true _ _).mp hkey).2
      refine ⟨updateAttemptRow existing.user_quiz_id op.total_marks op.score
          (round2 (rawPercentage op.score op.total_marks)) existing,
        ?_, ?_, ?_, ?_, ?_, ?_, ?_⟩
      · show List.filter _ _ = _
        rw [filter_map_of_pres _ _ _
          (updateAttemptRow_key existing.user_quiz_id op.total_marks op.score
            (round2 (rawPercentage op.score op.total_marks)) _ _)]
        have hsingle : db.attempts.filter
            (attemptKey (effectiveUserId op.user_id) op.quiz_id) = [existing] :=
          find?_filter_single _ _ _ hfind (h3 _ _)
        rw [hsingle]
        rfl
      · simpa [updateAttemptRow] using huser
      · simpa [updateAttemptRow] using hquiz
      · simp [updateAttemptRow]
      · simp [updateAttemptRow]
      · simp [updateAttemptRow]
      · rw [updateAttemptRow_user_quiz_id]
        show List.filter _ _ = _
        rw [List.filter_append]
        have hold : (db.answers.filter (fun x => x.user_quiz_id != existing.user_quiz_id)).filter
            (fun x => x.user_quiz_id == existing.user_quiz_id) = [] := by
          apply filter_eq_nil_of_false
          intro x hx
          have hne := List.of_mem_filter hx
          simpa using hne
        have hnew : (op.answers.map (mkAnswerRow existing.user_quiz_id)).filter
            (fun x => x.user_quiz_id == existing.user_quiz_id) =
            op.answers.map (mkAnswerRow existing.user_quiz_id) := by
          apply filter_eq_self_of_true
          intro x hx
          rcases List.mem_map.mp hx with ⟨b, _, rfl⟩
          simp [mkAnswerRow]
        rw [hold, hnew, List.nil_append]

theorem attemptInv_run (ops : List SaveOp) : AttemptInv (runAttemptOps ops) := by
  suffices h : ∀ (l : List SaveOp) (db : AttemptDB),
      AttemptInv db → AttemptInv (l.foldl applyAttemptOp db) by
    exact h ops emptyAttemptDB attemptInv_empty
  intro l
  induction l with
  | nil => intro db hdb; exact hdb
  | cons x xs ih => intro db hdb; exact ih _ (attemptInv_step db x hdb)

/-! ## Characterisation of the quiz save loop -/

/-- The question rows inserted by the save loop, with ids from base upward. -/
def mkQuestionRows (base : Nat) : List QuestionInput → List QuestionRow
  | [] => []
  | q :: rest => ⟨base, q.question_text⟩ :: mkQuestionRows (base + 1) rest

/-- The options rows inserted by the save loop. -/
def mkOptionRows (base : Nat) : List QuestionInput → List OptionsRow
  | [] => []
  | q :: rest =>
      ⟨base, q.option_a, q.option_b, q.option_c, q.option_d, q.correct_option⟩ ::
        mkOptionRows (base + 1) rest

/-- The quiz_questions link rows inserted by the save loop, with orders from
order upward. -/
def mkLinkRows (quiz_id base order : Nat) : List QuestionInput → List QuizQuestionRow
  | [] => []
  | _ :: rest => ⟨quiz_id, base, order, 1⟩ :: mkLinkRows quiz_id (base + 1) (order + 1) rest

/-- The assembled view questions a retrieval of the freshly saved quiz should
produce. -/
def expectedView (base order : Nat) : List QuestionInput → List QuizViewQuestion
  | [] => []
  | q :: rest =>
      ⟨base, q.question_text, q.option_a, q.option_b, q.option_c, q.option_d,
       q.correct_option, order, 1⟩ :: expectedView (base + 1) (order + 1) rest

theorem saveQuestionsLoop_spec (qs : List QuestionInput) :
    ∀ (quiz_id order : Nat) (db : QuizDB),
      saveQuestionsLoop quiz_id order qs db =
        { db with
          questions := db.questions ++ mkQuestionRows db.next_question_id qs
          options := db.options ++ mkOptionRows db.next_question_id qs
          quiz_questions := db.quiz_questions ++ mkLinkRows quiz_id db.next_question_id order qs
          next_question_id := db.next_question_id + qs.length } := by
  induction qs with
  | nil => intro quiz_id order db; simp [saveQuestionsLoop, mkQuestionRows, mkOptionRows, mkLinkRows]
  | cons q rest ih =>
      intro quiz_id order db
      obtain ⟨qzs, qns, ops, qqs, nqz, nqn⟩ := db
      show saveQuestionsLoop quiz_id (order + 1) rest _ = _
      rw [ih quiz_id (order + 1)]
      simp only [mkQuestionRows, mkOptionRows, mkLinkRows, List.length_cons,
        List.append_assoc, List.singleton_append, QuizDB.mk.injEq]
      refine ⟨trivial, trivial, trivial, trivial, trivial, by omega⟩

/-- Invariant of the quiz tables: every stored id is below the corresponding
serial counter. -/
def QuizInv (db : QuizDB) : Prop :=
  (∀ qz ∈ db.quizzes, qz.quiz_id < db.next_quiz_id) ∧
  (∀ q ∈ db.questions, q.question_id < db.next_question_id) ∧
  (∀ o ∈ db.options, o.question_id < db.next_question_id) ∧
  (∀ l ∈ db.quiz_questions, l.quiz_id < db.next_quiz_id ∧ l.question_id < db.next_question_id)

theorem quizInv_empty : QuizInv emptyQuizDB := by
  refine ⟨?_, ?_, ?_, ?_⟩ <;> simp [emptyQuizDB]

theorem mkQuestionRows_id_bounds (qs : List QuestionInput) :
    ∀ (base : Nat) (r : QuestionRow), r ∈ mkQuestionRows base qs →
      base ≤ r.question_id ∧ r.question_id < base + qs.length := by
  induction qs with
  | nil => intro base r hr; simp [mkQuestionRows] at hr
  | cons q rest ih =>
      intro base r hr
      rcases List.mem_cons.mp hr with hr' | hr'
      · subst hr'; simp
      · have := ih (base + 1) r hr'
        simp only [List.length_cons]
        omega

theorem mkOptionRows_id_bounds (qs : List QuestionInput) :
    ∀ (base : Nat) (r : OptionsRow), r ∈ mkOptionRows base qs →
      base ≤ r.question_id ∧ r.question_id < base + qs.length := by
  induction qs with
  | nil => intro base r hr; simp [mkOptionRows] at hr
  | cons q rest ih =>
      intro base r hr
      rcases List.mem_cons.mp hr with hr' | hr'
      · subst hr'; simp
      · have := ih (base + 1) r hr'
        simp only [List.length_cons]
        omega

theorem mkLinkRows_mem (qs : List QuestionInput) :
    ∀ (qid base order : Nat) (l : QuizQuestionRow), l ∈ mkLinkRows qid base order qs →
      l.quiz_id = qid ∧ base ≤ l.question_id ∧ l.question_id < base + qs.length := by
  induction qs with
  | nil => intro qid base order l hl; simp [mkLinkRows] at hl
  | cons q rest ih =>
      intro qid base order l hl
      rcases List.mem_cons.mp hl with hl' | hl'
      · subst hl'; simp
      · have := ih qid (base + 1) (order + 1) l hl'
        simp only [List.length_cons]
        exact ⟨this.1, by omega, by omega⟩

theorem quizInv_save (topic : String) (qs : List QuestionInput) (rep : Option String)
    (u : Option String) (db : QuizDB) (hinv : QuizInv db) :
    QuizInv (save_quiz_to_database_manual topic qs rep u db).2 := by
  obtain ⟨h1, h2, h3, h4⟩ := hinv
  show QuizInv (saveQuestionsLoop db.next_quiz_id 1 qs _)
  rw [saveQuestionsLoop_spec]
  refine ⟨?_, ?_, ?_, ?_⟩
  · intro qz hqz
    rcases List.mem_append.mp hqz with h | h
    · exact Nat.lt_succ_of_lt (h1 qz h)
    · have hq := List.mem_singleton.mp h
      subst hq
      exact Nat.lt_succ_self _
  · intro q hq
    rcases List.mem_append.mp hq with h | h
    · exact Nat.lt_of_lt_of_le (h2 q h) (Nat.le_add_right _ _)
    · exact (mkQuestionRows_id_bounds qs _ q h).2
  · intro o ho
    rcases List.mem_append.mp ho with h | h
    · exact Nat.lt_of_lt_of_le (h3 o h) (Nat.le_add_right _ _)
    · exact (mkOptionRows_id_bounds qs _ o h).2
  · intro l hl
    rcases List.mem_append.mp hl with h | h
    · exact ⟨Nat.lt_succ_of_lt (h4 l h).1,
        Nat.lt_of_lt_of_le (h4 l h).2 (Nat.le_add_right _ _)⟩
    · have := mkLinkRows_mem qs _ _ _ l h
      exact ⟨this.1 ▸ Nat.lt_succ_self _, this.2.2⟩

theorem insertByOrder_le_head (qs : List QuestionInput) (qid base order : Nat)
    (x : QuizQuestionRow) (hx : x.question_order ≤ order) :
    insertByOrder x (mkLinkRows qid base order qs) = x :: mkLinkRows qid base order qs := by
  cases qs with
  | nil => rfl
  | cons q rest => simp [mkLinkRows, insertByOrder, hx]

theorem sortByOrder_mkLinkRows (qs : List QuestionInput) :
    ∀ (qid base order : Nat),
      sortByOrder (mkLinkRows qid base order qs) = mkLinkRows qid base order qs := by
  induction qs with
  | nil => intro qid base order; rfl
  | cons q rest ih =>
      intro qid base order
      show insertByOrder ⟨qid, base, order, 1⟩
        (sortByOrder (mkLinkRows qid (base + 1) (order + 1) rest)) = _
      rw [ih qid (base + 1) (order + 1)]
      exact insertByOrder_le_head rest qid (base + 1) (order + 1) _ (Nat.le_succ order)

theorem joinQuestionRow_mkRows (qs : List QuestionInput) :
    ∀ (qid base order : Nat) (qtab : List QuestionRow) (otab : List OptionsRow),
      (∀ r ∈ qtab, r.question_id < base) →
      (∀ r ∈ otab, r.question_id < base) →
      (mkLinkRows qid base order qs).filterMap
        (joinQuestionRow (qtab ++ mkQuestionRows base qs) (otab ++ mkOptionRows base qs)) =
        expectedView base order qs := by
  induction qs with
  | nil => intro qid base order qtab otab hq ho; rfl
  | cons q rest ih =>
      intro qid base order qtab otab hq ho
      have hfq : (qtab ++ mkQuestionRows base (q :: rest)).find?
          (fun r => r.question_id == base) = some ⟨base, q.question_text⟩ := by
        rw [find?_append_of_none _ _ _
          (fun r hr => beq_eq_false_iff_ne.mpr (Nat.ne_of_lt (hq r hr)))]
        show List.find? _ ((⟨base, q.question_text⟩ : QuestionRow) :: _) = _
        simp [List.find?]
      have hfo : (otab ++ mkOptionRows base (q :: rest)).find?
          (fun r => r.question_id == base) =
          some ⟨base, q.option_a, q.option_b, q.option_c, q.option_d, q.correct_option⟩ := by
        rw [find?_append_of_none _ _ _
          (fun r hr => beq_eq_false_iff_ne.mpr (Nat.ne_of_lt (ho r hr)))]
        show List.find? _ ((⟨base, q.option_a, q.option_b, q.option_c, q.option_d,
          q.correct_option⟩ : OptionsRow) :: _) = _
        simp [List.find?]
      show List.filterMap _ (⟨qid, base, order, 1⟩ :: mkLinkRows qid (base + 1) (order + 1) rest)
        = _
      rw [List.filterMap_cons]
      have hjoin : joinQuestionRow (qtab ++ mkQuestionRows base (q :: rest))
          (otab ++ mkOptionRows base (q :: rest)) ⟨qid, base, order, 1⟩ =
          some ⟨base, q.question_text, q.option_a, q.option_b, q.option_c, q.option_d,
                q.correct_option, order, 1⟩ := by
        simp only [joinQuestionRow]
        rw [hfq, hfo]
      rw [hjoin]
      have htabq : qtab ++ mkQuestionRows base (q :: rest) =
          (qtab ++ [⟨base, q.question_text⟩]) ++ mkQuestionRows (base + 1) rest := by
        simp [mkQuestionRows, List.append_assoc]
      have htabo : otab ++ mkOptionRows base (q :: rest) =
          (otab ++ [⟨base, q.option_a, q.option_b, q.option_c, q.option_d,
            q.correct_option⟩]) ++ mkOptionRows (base + 1) rest := by
        simp [mkOptionRows, List.append_assoc]
      rw [htabq, htabo]
      rw [ih qid (base + 1) (order + 1) _ _ ?hq ?ho]
      case hq =>
        intro r hr
        rcases List.mem_append.mp hr with h | h
        · exact Nat.lt_succ_of_lt (hq r h)
        · have hr' := List.mem_singleton.mp h
          subst hr'
          exact Nat.lt_succ_self _
      case ho =>
        intro r hr
        rcases List.mem_append.mp hr with h | h
        · exact Nat.lt_succ_of_lt (ho r h)
        · have hr' := List.mem_singleton.mp h
          subst hr'
          exact Nat.lt_succ_self _
      rfl

theorem expectedView_length (qs : List QuestionInput) :
    ∀ (base order : Nat), (expectedView base order qs).length = qs.length := by
  induction qs with
  | nil => intro base order; rfl
  | cons q rest ih =>
      intro base order
      show (expectedView base order (q :: rest)).length = _
      simp only [expectedView, List.length_cons, ih]

theorem expectedView_content (qs : List QuestionInput) :
    ∀ (base order : Nat),
      (expectedView base order qs).map (fun v =>
        (v.question_text, v.option_a, v.option_b, v.option_c, v.option_d, v.correct_option)) =
      qs.map (fun q =>
        (q.question_text, q.option_a, q.option_b, q.option_c, q.option_d, q.correct_option)) := by
  induction qs with
  | nil => intro base order; rfl
  | cons q rest ih =>
      intro base order
      simp only [expectedView, List.map_cons, ih]

theorem expectedView_orders (qs : List QuestionInput) :
    ∀ (base order : Nat),
      (expectedView base order qs).map (fun v => v.question_order) =
        List.range' order qs.length := by
  induction qs with
  | nil => intro base order; rfl
  | cons q rest ih =>
      intro base order
      simp only [expectedView, List.map_cons, ih, List.length_cons, List.range']

theorem get_quiz_fresh (oldqz : List QuizRow) (oldq : List QuestionRow)
    (oldo : List OptionsRow) (oldl : List QuizQuestionRow) (nqz nqn nq2 nn2 : Nat)
    (user topic2 : String) (rep : Option String) (tq : Nat) (qs : List QuestionInput)
    (h1 : ∀ z ∈ oldqz, z.quiz_id < nqz) (h2 : ∀ r ∈ oldq, r.question_id < nqn)
    (h3 : ∀ r ∈ oldo, r.question_id < nqn) (h4 : ∀ l ∈ oldl, l.quiz_id < nqz)
    (hne : qs ≠ []) :
    get_quiz_by_id
      ⟨oldqz ++ [⟨nqz, user, topic2, rep, tq⟩], oldq ++ mkQuestionRows nqn qs,
       oldo ++ mkOptionRows nqn qs, oldl ++ mkLinkRows nqz nqn 1 qs, nq2, nn2⟩ nqz =
      some ⟨nqz, topic2, rep, expectedView nqn 1 qs, qs.length⟩ := by
  have hfindqz : (oldqz ++ [(⟨nqz, user, topic2, rep, tq⟩ : QuizRow)]).find?
      (fun qz => qz.quiz_id == nqz) = some ⟨nqz, user, topic2, rep, tq⟩ := by
    rw [find?_append_of_none _ _ _
      (fun qz hqz => beq_eq_false_iff_ne.mpr (Nat.ne_of_lt (h1 qz hqz)))]
    simp [List.find?]
  have hfilter : (oldl ++ mkLinkRows nqz nqn 1 qs).filter (fun l => l.quiz_id == nqz) =
      mkLinkRows nqz nqn 1 qs := by
    rw [List.filter_append]
    rw [filter_eq_nil_of_false _ _
      (fun l hl => beq_eq_false_iff_ne.mpr (Nat.ne_of_lt (h4 l hl)))]
    rw [filter_eq_self_of_true _ _
      (fun l hl => beq_iff_eq.mpr (mkLinkRows_mem qs _ _ _ l hl).1)]
    exact List.nil_append _
  simp only [get_quiz_by_id]
  simp only [hfindqz]
  simp only [hfilter]
  rw [sortByOrder_mkLinkRows qs nqz nqn 1]
  rw [joinQuestionRow_mkRows qs nqz nqn 1 oldq oldo h2 h3]
  cases qs with
  | nil => exact absurd rfl hne
  | cons q rest =>
      simp only [expectedView, List.isEmpty_cons, Bool.false_eq_true, if_false,
        List.length_cons, expectedView_length]

theorem get_after_save (topic : String) (qs : List QuestionInput)
    (rep : Option String) (u : Option String) (db : QuizDB)
    (hinv : QuizInv db) (hne : qs ≠ []) :
    get_quiz_by_id (save_quiz_to_database_manual topic qs rep u db).2 db.next_quiz_id =
      some ⟨db.next_quiz_id, pyTruncate 255 topic, rep,
            expectedView db.next_question_id 1 qs, qs.length⟩ := by
  obtain ⟨h1, h2, h3, h4⟩ := hinv
  obtain ⟨qzs, qns, ops, qqs, nqz, nqn⟩ := db
  have hsave : (save_quiz_to_database_manual topic qs rep u ⟨qzs, qns, ops, qqs, nqz, nqn⟩).2 =
      ⟨qzs ++ [⟨nqz, effectiveUserId u, pyTruncate 255 topic, rep, qs.length⟩],
       qns ++ mkQuestionRows nqn qs, ops ++ mkOptionRows nqn qs,
       qqs ++ mkLinkRows nqz nqn 1 qs, nqz + 1, nqn + qs.length⟩ := by
    show saveQuestionsLoop nqz 1 qs _ = _
    rw [saveQuestionsLoop_spec]
  rw [hsave]
  exact get_quiz_fresh qzs qns ops qqs nqz nqn (nqz + 1) (nqn + qs.length)
    (effectiveUserId u) (pyTruncate 255 topic) rep qs.length qs h1 h2 h3
    (fun l hl => (h4 l hl).1) hne

/-! ## Lemmas about the submit_quiz scoring loop -/

theorem scoreStep_fst (questions : List QuizViewQuestion) (st : Int × List AnswerInput)
    (a : SubmittedAnswer) :
    (scoreStep questions st a).1 = st.1 +
      (if quizCorrectAnswers questions a.question_id == some a.selected_option
       then (1 : Int) else 0) := rfl

theorem submit_score_foldl_fst (questions : List QuizViewQuestion)
    (answers : List SubmittedAnswer) :
    ∀ (st : Int × List AnswerInput),
      (answers.foldl (scoreStep questions) st).1 =
        st.1 + (answers.countP (fun a =>
          quizCorrectAnswers questions a.question_id == some a.selected_option) : Int) := by
  induction answers with
  | nil => intro st; simp
  | cons a rest ih =>
      intro st
      rw [List.foldl_cons, ih, scoreStep_fst, List.countP_cons]
      by_cases h : (quizCorrectAnswers questions a.question_id == some a.selected_option) = true
      · simp only [h, if_true]
        push_cast
        ring
      · have h' : (quizCorrectAnswers questions a.question_id == some a.selected_option)
            = false := by simpa using h
        simp only [h', Bool.false_eq_true, if_false]
        push_cast
        ring

theorem quizCorrectAnswers_none (questions : List QuizViewQuestion) (qid : Nat)
    (h : ∀ q ∈ questions, q.question_id ≠ qid) :
    quizCorrectAnswers questions qid = none := by
  unfold quizCorrectAnswers
  rw [List.find?_eq_none.mpr]
  · rfl
  · intro q hq
    simp only [beq_iff_eq]
    exact h q (List.mem_reverse.mp hq)

/-! ## Further projections of the quiz save -/

theorem saveQuestionsLoop_quizzes (qs : List QuestionInput) :
    ∀ (quiz_id order : Nat) (db : QuizDB),
      (saveQuestionsLoop quiz_id order qs db).quizzes = db.quizzes := by
  induction qs with
  | nil => intro quiz_id order db; rfl
  | cons q rest ih =>
      intro quiz_id order db
      show (saveQuestionsLoop quiz_id (order + 1) rest _).quizzes = _
      rw [ih]

theorem save_quiz_quizzes (topic : String) (qs : List QuestionInput) (rep : Option String)
    (u : Option String) (db : QuizDB) :
    (save_quiz_to_database_manual topic qs rep u db).2.quizzes =
      db.quizzes ++ [⟨db.next_quiz_id, effectiveUserId u, pyTruncate 255 topic, rep, qs.length⟩] := by
  show (saveQuestionsLoop db.next_quiz_id 1 qs _).quizzes = _
  rw [saveQuestionsLoop_quizzes]

theorem save_quiz_options (topic : String) (qs : List QuestionInput) (rep : Option String)
    (u : Option String) (db : QuizDB) :
    (save_quiz_to_database_manual topic qs rep u db).2.options =
      db.options ++ mkOptionRows db.next_question_id qs := by
  show (saveQuestionsLoop db.next_quiz_id 1 qs _).options = _
  rw [saveQuestionsLoop_spec]

theorem mkOptionRows_mem_of_input (qs : List QuestionInput) (q : QuestionInput) :
    ∀ (base : Nat), q ∈ qs →
      ∃ o ∈ mkOptionRows base qs, o.correct_option = q.correct_option := by
  induction qs with
  | nil => intro base hq; simp at hq
  | cons p rest ih =>
      intro base hq
      rcases List.mem_cons.mp hq with hq' | hq'
      · subst hq'
        exact ⟨⟨base, q.option_a, q.option_b, q.option_c, q.option_d, q.correct_option⟩,
          List.mem_cons_self _ _, rfl⟩
      · obtain ⟨o, ho, heq⟩ := ih (base + 1) hq'
        exact ⟨o, List.mem_cons_of_mem _ ho, heq⟩

/-! ## Claim theorems -/

/-- C1: after any sequence of attempt-save calls there is at most one
UserQuizAttempt row for every (user_id, quiz_id) pair, and for the pair of the
most recent call the single stored row carries that call's scoring fields
while the answer rows under its attempt id are exactly that call's answers —
the old answers having been deleted and the new ones re-inserted. -/
theorem attempt_upsert_one_row_latest (ops : List SaveOp) (op : SaveOp) :
    (∀ u q, (attemptsFor (runAttemptOps (ops ++ [op])) u q).length ≤ 1) ∧
    ∃ r, attemptsFor (runAttemptOps (ops ++ [op]))
        (effectiveUserId op.user_id) op.quiz_id = [r] ∧
      r.total_marks = op.total_marks ∧ r.score = op.score ∧
      r.percentage = round2 (rawPercentage op.score op.total_marks) ∧
      answersFor (runAttemptOps (ops ++ [op])) r.user_quiz_id =
        op.answers.map (mkAnswerRow r.user_quiz_id) := by
  have hsplit : runAttemptOps (ops ++ [op]) = applyAttemptOp (runAttemptOps ops) op := by
    simp [runAttemptOps, List.foldl_append]
  constructor
  · intro u q
    rw [hsplit]
    exact (attemptInv_step _ op (attemptInv_run ops)).2.2 u q
  · rw [hsplit]
    obtain ⟨r, h1, _, _, h4, h5, h6, h7⟩ := attempt_step_reflects _ op (attemptInv_run ops)
    exact ⟨r, h1, h4, h5, h6, h7⟩

/-- C2 counterexample: at score 1 and total_marks 3 the percentage returned in
the attempt-save result envelope is the unrounded 100/3, which differs from
round(1/3*100, 2) = 33.33; only the stored row receives the rounded value. -/
theorem attempt_envelope_percentage_unrounded :
    (save_user_quiz_attempt_manual (some "u1") 1 [] 3 1 emptyAttemptDB).1.percentage =
      (100 : ℚ) / 3 ∧
    round2 ((1 : ℚ) / (3 : ℚ) * 100) = (3333 : ℚ) / 100 ∧
    (save_user_quiz_attempt_manual (some "u1") 1 [] 3 1 emptyAttemptDB).1.percentage ≠
      round2 ((1 : ℚ) / (3 : ℚ) * 100) := by
  have henv : (save_user_quiz_attempt_manual (some "u1") 1 [] 3 1
      emptyAttemptDB).1.percentage = (100 : ℚ) / 3 := by
    rw [save_attempt_insert (some "u1") 1 [] 3 1 emptyAttemptDB rfl]
    show rawPercentage 1 3 = _
    norm_num [rawPercentage]
  have hfloor : ⌊(1 : ℚ) / 3 * 100 * 100⌋ = 3333 := by
    rw [Int.floor_eq_iff]
    constructor <;> norm_num
  have hround : round2 ((1 : ℚ) / (3 : ℚ) * 100) = (3333 : ℚ) / 100 := by
    have hrhe : roundHalfEven ((1 : ℚ) / 3 * 100 * 100) = 3333 := by
      rw [roundHalfEven, hfloor]
      norm_num
    rw [round2, hrhe]
    norm_num
  refine ⟨henv, hround, ?_⟩
  rw [henv, hround]
  norm_num

/-- C2 (amended): the attempt-save operation stores
round(score/total_marks*100, 2) on the UserQuizAttempt row — score/total*100
when total_marks is positive and 0 when it is 0, with the division guarded —
while the percentage in its result envelope is the raw unrounded value. -/
theorem attempt_percentage_stored_rounded (u : Option String) (q : Nat)
    (ans : List AnswerInput) (tm sc : Int) (db : AttemptDB) (hinv : AttemptInv db) :
    (save_user_quiz_attempt_manual u q ans tm sc db).1.percentage = rawPercentage sc tm ∧
    (0 < tm → rawPercentage sc tm = (sc : ℚ) / (tm : ℚ) * 100) ∧
    (tm = 0 → rawPercentage sc tm = 0) ∧
    ∃ r, attemptsFor (save_user_quiz_attempt_manual u q ans tm sc db).2
        (effectiveUserId u) q = [r] ∧
      r.percentage = round2 (rawPercentage sc tm) := by
  refine ⟨?_, ?_, ?_, ?_⟩
  · cases hfind : db.attempts.find? (attemptKey (effectiveUserId u) q) with
    | none => rw [save_attempt_insert u q ans tm sc db hfind]
    | some e => rw [save_attempt_update u q ans tm sc db e hfind]
  · intro h
    simp [rawPercentage, h]
  · intro h
    simp [rawPercentage, h]
  · obtain ⟨r, h1, _, _, _, _, h6, _⟩ :=
      attempt_step_reflects db ⟨u, q, ans, tm, sc⟩ hinv
    exact ⟨r, h1, h6⟩

/-- Witness for the amended C2 at user u1, quiz 1, score 1, total_marks 3 on
the empty attempt database: the envelope carries 1/3*100 unrounded. -/
theorem attempt_percentage_stored_rounded_witness :
    (save_user_quiz_attempt_manual (some "u1") 1 [] 3 1 emptyAttemptDB).1.percentage =
      (1 : ℚ) / (3 : ℚ) * 100 :=
  ((attempt_percentage_stored_rounded (some "u1") 1 [] 3 1 emptyAttemptDB
    attemptInv_empty).1).trans
    ((attempt_percentage_stored_rounded (some "u1") 1 [] 3 1 emptyAttemptDB
      attemptInv_empty).2.1 (by decide))

/-- C3 counterexample: the quiz-database layer does not latch — in a run whose
first call finds PostgreSQL unreachable (so it falls back) and whose second
call finds it reachable again, the second call attempts the primary, contrary
to the claimed process-wide one-way latch over every persistence operation. -/
theorem quiz_routing_retries_primary :
    quizRoutes [false, true] = [Backend.fallback, Backend.primary] ∧
    quizRoutes [false, true] ≠ [Backend.fallback, Backend.fallback] := by
  decide

/-- C3 (amended): the document-store availability flag is a one-way latch —
once false every later document operation routes to the fallback and the flag
stays false forever, and any failed primary call clears it — while the
quiz-database layer attempts a fresh PostgreSQL connection on every call,
routing to the primary exactly when that call's connection succeeds. -/
theorem failover_latch_documents_only :
    (∀ oks : List Bool, docRoutes false oks = oks.map (fun _ => Backend.fallback)) ∧
    (∀ oks : List Bool, oks.foldl (fun st ok => (docOpStep st ok).2) false = false) ∧
    (∀ st : Bool, (docOpStep st false).2 = false) ∧
    (∀ ok : Bool, quizRoute ok = if ok then Backend.primary else Backend.fallback) := by
  refine ⟨?_, ?_, ?_, ?_⟩
  · intro oks
    induction oks with
    | nil => rfl
    | cons ok rest ih => simp [docRoutes, docOpStep, ih]
  · intro oks
    induction oks with
    | nil => rfl
    | cons ok rest ih => simpa [docOpStep] using ih
  · intro st
    cases st <;> rfl
  · intro ok
    rfl

/-- A question whose correct option letter is outside A-D. -/
def badQuestion : QuestionInput := ⟨"2+2?", "3", "4", "5", "6", "E"⟩

/-- C4 counterexample: saving a quiz whose single question has correct_option
E reports success, persists the E options row, and leaves the quiz
retrievable — no validation error occurs and rows are written. -/
theorem save_quiz_persists_invalid_correct_option :
    (save_quiz_to_database_manual "Math" [badQuestion] none (some "u1")
      emptyQuizDB).1.success = true ∧
    (save_quiz_to_database_manual "Math" [badQuestion] none (some "u1")
      emptyQuizDB).2.options.map (fun o => o.correct_option) = ["E"] ∧
    get_quiz_by_id (save_quiz_to_database_manual "Math" [badQuestion] none (some "u1")
      emptyQuizDB).2 1 ≠ none := by
  refine ⟨rfl, ?_, ?_⟩ <;> decide

/-- C4 (amended): the quiz-save database functions perform no validation of
correct_option — an input containing a letter outside A-D is persisted
verbatim and the save reports success — while the A-D membership check lives
in the quiz generation endpoint, whose validation rejects such generator
output before any database write is attempted. -/
theorem save_quiz_no_correct_option_validation (topic : String)
    (qs : List QuestionInput) (rep : Option String) (u : Option String) (db : QuizDB)
    (q : QuestionInput) (hq : q ∈ qs)
    (hbad : q.correct_option ∉ (["A", "B", "C", "D"] : List String)) :
    generate_quiz_validate qs = false ∧
    (save_quiz_to_database_manual topic qs rep u db).1.success = true ∧
    ∃ o ∈ (save_quiz_to_database_manual topic qs rep u db).2.options,
      o.correct_option = q.correct_option := by
  simp only [List.mem_cons, List.mem_singleton, not_or] at hbad
  obtain ⟨hA, hB, hC, hD⟩ := hbad
  refine ⟨?_, rfl, ?_⟩
  · have hall : qs.all (fun p =>
        p.correct_option == "A" || p.correct_option == "B" ||
        p.correct_option == "C" || p.correct_option == "D") = false := by
      rw [List.all_eq_false]
      exact ⟨q, hq, by simp [hA, hB, hC, hD]⟩
    simp [generate_quiz_validate, hall]
  · rw [save_quiz_options]
    obtain ⟨o, ho, heq⟩ := mkOptionRows_mem_of_input qs q db.next_question_id hq
    exact ⟨o, List.mem_append_right _ ho, heq⟩

/-- Witness for the amended C4 at the single-question input with
correct_option E on the empty quiz database. -/
theorem save_quiz_no_correct_option_validation_witness :
    generate_quiz_validate [badQuestion] = false ∧
    (save_quiz_to_database_manual "Math" [badQuestion] none (some "u1")
      emptyQuizDB).1.success = true ∧
    ∃ o ∈ (save_quiz_to_database_manual "Math" [badQuestion] none (some "u1")
      emptyQuizDB).2.options, o.correct_option = badQuestion.correct_option :=
  save_quiz_no_correct_option_validation "Math" [badQuestion] none (some "u1")
    emptyQuizDB badQuestion (by decide) (by decide)

/-- C5: creating a quiz from a non-empty question list assigns question_order
1..n by input position, and get_quiz on the returned quiz id yields exactly
the input questions, in input order, with all four options, the correct
option, the truncated topic and the question count. -/
theorem quiz_ordering_round_trip (topic : String) (qs : List QuestionInput)
    (rep : Option String) (u : Option String) (db : QuizDB)
    (hinv : QuizInv db) (hne : qs ≠ []) :
    ∃ v, get_quiz_by_id (save_quiz_to_database_manual topic qs rep u db).2
        (save_quiz_to_database_manual topic qs rep u db).1.quiz_id = some v ∧
      v.questions.map (fun w =>
        (w.question_text, w.option_a, w.option_b, w.option_c, w.option_d,
         w.correct_option)) =
        qs.map (fun w =>
          (w.question_text, w.option_a, w.option_b, w.option_c, w.option_d,
           w.correct_option)) ∧
      v.questions.map (fun w => w.question_order) = List.range' 1 qs.length ∧
      v.total_questions = qs.length ∧ v.topic = pyTruncate 255 topic := by
  refine ⟨⟨db.next_quiz_id, pyTruncate 255 topic, rep,
    expectedView db.next_question_id 1 qs, qs.length⟩, ?_, ?_, ?_, rfl, rfl⟩
  · exact get_after_save topic qs rep u db hinv hne
  · exact expectedView_content qs _ _
  · exact expectedView_orders qs _ _

/-- Witness for C5 at a one-question quiz on the empty quiz database. -/
theorem quiz_ordering_round_trip_witness :
    ∃ v, get_quiz_by_id (save_quiz_to_database_manual "Math"
        [⟨"2+2?", "3", "4", "5", "6", "B"⟩] none (some "u1") emptyQuizDB).2
        (save_quiz_to_database_manual "Math" [⟨"2+2?", "3", "4", "5", "6", "B"⟩]
          none (some "u1") emptyQuizDB).1.quiz_id = some v ∧
      v.questions.map (fun w =>
        (w.question_text, w.option_a, w.option_b, w.option_c, w.option_d,
         w.correct_option)) =
        [⟨"2+2?", "3", "4", "5", "6", "B"⟩].map (fun w : QuestionInput =>
          (w.question_text, w.option_a, w.option_b, w.option_c, w.option_d,
           w.correct_option)) ∧
      v.questions.map (fun w => w.question_order) = List.range' 1 1 ∧
      v.total_questions = 1 ∧ v.topic = pyTruncate 255 "Math" :=
  quiz_ordering_round_trip "Math" [⟨"2+2?", "3", "4", "5", "6", "B"⟩] none (some "u1")
    emptyQuizDB quizInv_empty (by decide)

/-- C6: deleting a document whose stored owner V differs from the caller's
non-empty user U returns the access-denied result — distinguished from
not-found — and leaves the table unchanged, so get_document immediately
afterwards returns the same document; deleting a nonexistent doc_id yields
the not-found result, not an exception. -/
theorem delete_document_ownership (now : String) (db : DocDB) (id : Nat)
    (U V : String) (row : DocRow)
    (hfind : db.rows.find? (fun r => r.doc_id == id) = some row)
    (howner : row.user_id = some V) (hV : V ≠ "") (hU : U ≠ "") (hUV : U ≠ V) :
    (delete_document now db id (some U)).1 =
      ⟨false, "Access denied: You can only delete your own documents"⟩ ∧
    (delete_document now db id (some U)).1.message ≠ "Document not found" ∧
    (delete_document now db id (some U)).2 = db ∧
    get_document now (delete_document now db id (some U)).2 id =
      get_document now db id ∧
    get_document now db id = some (normalize_supabase_document now (recordOfRow row)) ∧
    (∀ (db2 : DocDB) (id2 : Nat) (u2 : Option String),
      db2.rows.find? (fun r => r.doc_id == id2) = none →
      delete_document now db2 id2 u2 = (⟨false, "Document not found"⟩, db2)) := by
  have hget : get_document now db id =
      some (normalize_supabase_document now (recordOfRow row)) := by
    simp only [get_document, hfind]
  have huser : (normalize_supabase_document now (recordOfRow row)).user_id = some V := by
    simp only [normalize_supabase_document, recordOfRow, howner, strTruthy, pyStr]
    simp [hV]
  have hVU : V ≠ U := fun h => hUV h.symm
  have hdel : delete_document now db id (some U) =
      (⟨false, "Access denied: You can only delete your own documents"⟩, db) := by
    simp only [delete_document, hget, huser]
    simp [hU, hV, hVU]
  refine ⟨?_, ?_, ?_, ?_, hget, ?_⟩
  · rw [hdel]
  · rw [hdel]
    simp
  · rw [hdel]
  · rw [hdel]
  · intro db2 id2 u2 h2
    have hget2 : get_document now db2 id2 = none := by
      simp only [get_document, h2]
    simp only [delete_document, hget2]

/-- A stored document row owned by user v1, with stored keywords and a stored
creation timestamp. -/
def sampleDocRow : DocRow :=
  ⟨1, some "v1", "Cats", some "Cats are mammals.", some "A summary",
   some "alpha, beta", JsonText.val (Json.arr [Json.str "r"]), none,
   "2024-01-01T00:00:00", 0, none⟩

/-- A documents table holding only sampleDocRow. -/
def sampleDocDB : DocDB := ⟨[sampleDocRow], 2⟩

/-- Witness for C6: user u1 cannot delete document 1 owned by v1, and the
table is unchanged. -/
theorem delete_document_ownership_witness :
    (delete_document "T0" sampleDocDB 1 (some "u1")).1 =
      ⟨false, "Access denied: You can only delete your own documents"⟩ ∧
    (delete_document "T0" sampleDocDB 1 (some "u1")).2 = sampleDocDB :=
  ⟨(delete_document_ownership "T0" sampleDocDB 1 "u1" "v1" sampleDocRow rfl rfl
      (by decide) (by decide) (by decide)).1,
   (delete_document_ownership "T0" sampleDocDB 1 "u1" "v1" sampleDocRow rfl rfl
      (by decide) (by decide) (by decide)).2.2.1⟩

/-- C7: in submit_quiz the score is the count of submitted answers whose
selected option equals the correct option of their question, total_marks is
the number of quiz questions, and an answer whose question_id does not belong
to the quiz contributes 0 to the score without error. -/
theorem submit_quiz_scoring (questions : List QuizViewQuestion) :
    (∀ answers : List SubmittedAnswer,
      (submit_quiz_score questions answers).1 =
        (answers.countP (fun a =>
          quizCorrectAnswers questions a.question_id == some a.selected_option) : Int)) ∧
    submit_quiz_total_marks questions = (questions.length : Int) ∧
    (∀ (answers : List SubmittedAnswer) (a : SubmittedAnswer),
      (∀ q ∈ questions, q.question_id ≠ a.question_id) →
      (submit_quiz_score questions (answers ++ [a])).1 =
        (submit_quiz_score questions answers).1) := by
  refine ⟨?_, rfl, ?_⟩
  · intro answers
    rw [submit_quiz_score, submit_score_foldl_fst]
    simp
  · intro answers a h
    show (List.foldl (scoreStep questions) ((0 : Int), ([] : List AnswerInput))
      (answers ++ [a])).1 = _
    rw [List.foldl_append, List.foldl_cons, List.foldl_nil, scoreStep_fst,
      quizCorrectAnswers_none questions a.question_id h]
    simp [submit_quiz_score]

/-- Witness for C7: on a one-question quiz, appending an answer for an absent
question id leaves the score unchanged at 1. -/
theorem submit_quiz_scoring_witness :
    (submit_quiz_score [⟨1, "2+2?", "3", "4", "5", "6", "B", 1, 1⟩]
      ([⟨1, "B"⟩] ++ [⟨2, "A"⟩])).1 =
      (submit_quiz_score [⟨1, "2+2?", "3", "4", "5", "6", "B", 1, 1⟩] [⟨1, "B"⟩]).1 ∧
    (submit_quiz_score [⟨1, "2+2?", "3", "4", "5", "6", "B", 1, 1⟩] [⟨1, "B"⟩]).1 = 1 :=
  ⟨(submit_quiz_scoring [⟨1, "2+2?", "3", "4", "5", "6", "B", 1, 1⟩]).2.2
      [⟨1, "B"⟩] ⟨2, "A"⟩ (by decide),
   by decide⟩

/-- C8: the document normalizer returns keywords as the empty string and a
created_at generated at read time, whatever the stored keywords and
created_at were, and get_document — both of whose backend paths end in the
normalizer — does the same. -/
theorem normalized_document_discards_keywords (now : String) :
    (∀ record : DocRecord, (normalize_supabase_document now record).keywords = "" ∧
      (normalize_supabase_document now record).created_at = now) ∧
    (∀ (db : DocDB) (id : Nat) (d : NormalizedDoc),
      get_document now db id = some d → d.keywords = "" ∧ d.created_at = now) := by
  constructor
  · intro record
    exact ⟨rfl, rfl⟩
  · intro db id d h
    cases hfind : db.rows.find? (fun r => r.doc_id == id) with
    | none =>
        simp only [get_document, hfind] at h
        exact Option.noConfusion h
    | some row =>
        simp only [get_document, hfind, Option.some_inj] at h
        subst h
        exact ⟨rfl, rfl⟩

/-- Witness for C8 on sampleDocRow, whose stored keywords and created_at are
non-empty: the document read back at time T9 has empty keywords and
created_at T9. -/
theorem normalized_document_discards_keywords_witness :
    (normalize_supabase_document "T9" (recordOfRow sampleDocRow)).keywords = "" ∧
    (normalize_supabase_document "T9" (recordOfRow sampleDocRow)).created_at = "T9" :=
  (normalized_document_discards_keywords "T9").2 sampleDocDB 1
    (normalize_supabase_document "T9" (recordOfRow sampleDocRow)) rfl

/-- C9: a missing or empty user_id is replaced by the fixed demo identifier
before persisting: the substitute is never empty, missing and empty inputs
map to the demo id, and the rows created by save_document_session,
save_quiz_to_database_manual and save_user_quiz_attempt_manual carry the
substituted identifier (updated attempt rows keep their stored user), so no
row created by these operations has an empty user_id. -/
theorem demo_user_substitution :
    (∀ u : Option String, effectiveUserId u ≠ "") ∧
    (effectiveUserId none = demoUserId ∧ effectiveUserId (some "") = demoUserId) ∧
    (∀ (u : Option String) (topic content summary : String) (resources : List Json)
      (keywords : Option String) (now : String) (db : DocDB),
      ∀ row ∈ (save_document_session u topic content summary resources keywords
          now db).2.rows,
        row ∈ db.rows ∨ row.user_id = some (effectiveUserId u)) ∧
    (∀ (topic : String) (qs : List QuestionInput) (rep : Option String)
      (u : Option String) (db : QuizDB),
      ∀ qz ∈ (save_quiz_to_database_manual topic qs rep u db).2.quizzes,
        qz ∈ db.quizzes ∨ qz.user_id = effectiveUserId u) ∧
    (∀ (u : Option String) (q : Nat) (ans : List AnswerInput) (tm sc : Int)
      (db : AttemptDB),
      ∀ a ∈ (save_user_quiz_attempt_manual u q ans tm sc db).2.attempts,
        (∃ b ∈ db.attempts, a.user_id = b.user_id) ∨
          a.user_id = effectiveUserId u) := by
  refine ⟨?_, ⟨rfl, rfl⟩, ?_, ?_, ?_⟩
  · intro u
    cases u with
    | none => decide
    | some s =>
        by_cases hs : s = ""
        · subst hs
          decide
        · simp [effectiveUserId, hs]
  · intro u topic content summary resources keywords now db row hrow
    have hrows : (save_document_session u topic content summary resources keywords
        now db).2.rows =
        db.rows ++ [⟨db.next_doc_id, some (effectiveUserId u), pyTruncate 255 topic,
          some content, some summary, keywords, serialize_resources (some resources),
          none, now, 0, none⟩] := rfl
    rw [hrows] at hrow
    rcases List.mem_append.mp hrow with h | h
    · exact Or.inl h
    · right
      rw [List.mem_singleton.mp h]
  · intro topic qs rep u db qz hqz
    rw [save_quiz_quizzes] at hqz
    rcases List.mem_append.mp hqz with h | h
    · exact Or.inl h
    · right
      rw [List.mem_singleton.mp h]
  · intro u q ans tm sc db a ha
    cases hfind : db.attempts.find? (attemptKey (effectiveUserId u) q) with
    | none =>
        rw [save_attempt_insert u q ans tm sc db hfind] at ha
        rcases List.mem_append.mp ha with h | h
        · exact Or.inl ⟨a, h, rfl⟩
        · right
          rw [List.mem_singleton.mp h]
    | some e =>
        rw [save_attempt_update u q ans tm sc db e hfind] at ha
        rcases List.mem_map.mp ha with ⟨b, hb, rfl⟩
        exact Or.inl ⟨b, hb, updateAttemptRow_user_id _ _ _ _ _⟩

/-- Witness for C9: saving a quiz with no user on the empty database creates
the quiz row under the demo identifier, which is non-empty. -/
theorem demo_user_substitution_witness :
    effectiveUserId none = demoUserId ∧
    ((⟨1, demoUserId, "T", none, 0⟩ : QuizRow) ∈ emptyQuizDB.quizzes ∨
      (⟨1, demoUserId, "T", none, 0⟩ : QuizRow).user_id = effectiveUserId none) ∧
    effectiveUserId none ≠ "" :=
  ⟨demo_user_substitution.2.1.1,
   demo_user_substitution.2.2.2.1 "T" [] none none emptyQuizDB
     ⟨1, demoUserId, "T", none, 0⟩ (by decide),
   demo_user_substitution.1 none⟩

/-- C10: deserialization inverts serialization on every JSON list, and a
missing, empty, malformed, or non-list JSON input deserializes to the empty
list instead of raising. -/
theorem resources_serialization_round_trip :
    (∀ xs : List Json, deserialize_resources (some (serialize_resources (some xs))) = xs) ∧
    deserialize_resources none = [] ∧
    deserialize_resources (some JsonText.empty) = [] ∧
    deserialize_resources (some JsonText.malformed) = [] ∧
    (∀ j : Json, (∀ xs : List Json, j ≠ Json.arr xs) →
      deserialize_resources (some (JsonText.val j)) = []) := by
  refine ⟨fun _ => rfl, rfl, rfl, rfl, ?_⟩
  intro j hj
  cases j with
  | arr xs => exact absurd rfl (hj xs)
  | null => rfl
  | bool b => rfl
  | num q => rfl
  | str s => rfl
  | obj f => rfl

/-- Witness for C10: a one-element list survives the round trip and a string
JSON document deserializes to the empty list. -/
theorem resources_serialization_round_trip_witness :
    deserialize_resources (some (serialize_resources (some [Json.str "a"]))) =
      [Json.str "a"] ∧
    deserialize_resources (some (JsonText.val (Json.str "x"))) = [] :=
  ⟨resources_serialization_round_trip.1 [Json.str "a"],
   resources_serialization_round_trip.2.2.2.2 (Json.str "x")
     (fun _ h => Json.noConfusion h)⟩

end StudyHelper
